import Mathlib

/-!
Shallow embedding of `src/index.js` of the tip-checker repository.

The program fetches Global Entry service locations, filters them by a
state allow-list, fetches appointment slots per location, joins slots
back to location names (with an "Unknown" fallback), sorts by parsed
start time and prints one line per appointment, or a
"No appointments found." message.

Network fetches, timestamp formatting (`toLocaleString`) and date
parsing (`new Date(string)`) are modelled as explicit environment
parameters; `Promise.all` over the per-location fetches is modelled as
an `Except`-collecting traversal (any rejection rejects the whole
aggregate); the `console.log` calls of `init` are modelled as a trace
of output events.
-/

namespace TipChecker

/-- A location record as returned by the locations endpoint
(`{ id, name, state, ... }` in `src/index.js`). -/
structure Location where
  id : Int
  name : String
  state : String
deriving Repr, DecidableEq

/-- A slot record as returned by the slots endpoint
(`{ locationId, startTimestamp, endTimestamp }`). -/
structure Slot where
  locationId : Int
  startTimestamp : Int
  endTimestamp : Int
deriving Repr, DecidableEq

/-- The derived appointment record built in `getAvailableAppointments`:
`{ location, start, end }` with localized timestamp strings. -/
structure Appointment where
  location : String
  start : String
  endTime : String
deriving Repr, DecidableEq

/-- Lines 21-25 of `src/index.js`:
`locations.filter((location) => filter.includes(location.state)).map((location) => location.id)`. -/
def getAllLocationIds (locations : List Location) (filter : List String) : List Int :=
  let filteredData := locations.filter (fun location => filter.contains location.state)
  let locationIds := filteredData.map (fun location => location.id)
  locationIds

/-- The body of the `data.map` callback at `src/index.js` lines 44-55:
`locations.find(loc => loc.id === appointment.locationId)` resolves the
display name, falling back to `"Unknown"`; both timestamps are rendered
through the (abstracted) `toLocaleString` formatter `fmt`. -/
def toAppointment (locations : List Location) (fmt : Int → String) (s : Slot) : Appointment :=
  match locations.find? (fun loc => loc.id == s.locationId) with
  | some location =>
      { location := location.name
        start := fmt s.startTimestamp
        endTime := fmt s.endTimestamp }
  | none =>
      { location := "Unknown"
        start := fmt s.startTimestamp
        endTime := fmt s.endTimestamp }

/-- Model of `Promise.all` over a list of already-determined outcomes: succeeds
with the list of values when every branch succeeds, and rejects (with
the first rejection in list order) as soon as any branch rejects. -/
def promiseAll {ε α : Type} : List (Except ε α) → Except ε (List α)
  | [] => Except.ok []
  | r :: rs =>
    match r with
    | Except.error e => Except.error e
    | Except.ok a =>
      match promiseAll rs with
      | Except.error e => Except.error e
      | Except.ok as => Except.ok (a :: as)

/-- Lines 33-62 of `src/index.js`: one fetch per location id (the network
is abstracted as `fetchSlots limit locationId`), each response mapped
to appointments via `toAppointment`, all branches awaited through
`Promise.all`, and the pushed results aggregated into one list. -/
def getAvailableAppointments (locations : List Location) (locationIds : List Int)
    (limit : Nat) (fetchSlots : Nat → Int → Except String (List Slot))
    (fmt : Int → String) : Except String (List Appointment) :=
  (promiseAll (locationIds.map (fun locationId =>
      (fetchSlots limit locationId).map
        (fun data => data.map (toAppointment locations fmt))))).map
    (fun chunks => chunks.flatten)

/-- The hardcoded state allow-list passed by `init`
(`src/index.js` line 73). -/
def regionAllowList : List String := ["OH", "KY", "IN", "IL", "TN"]

/-- The sort at `src/index.js` line 85:
`appointments.sort((a, b) => new Date(a.start) - new Date(b.start))`,
a stable sort keyed by the (abstracted) `Date` parse of the `start`
string. -/
def sortByStart (parse : String → Int) (appointments : List Appointment) :
    List Appointment :=
  appointments.mergeSort (fun a b => parse a.start ≤ parse b.start)

/-- One `console.log` call of `init` (`src/index.js` lines 69, 87, 90). -/
inductive OutEvent where
  | checking
  | appointmentLine (a : Appointment)
  | noAppointments
deriving Repr, DecidableEq

/-- The exact text each `console.log` call of `init` prints. -/
def OutEvent.render : OutEvent → String
  | .checking => "Checking for appointments..."
  | .appointmentLine a =>
      "There is a TTP appointment available at " ++ a.location ++ " on " ++
        a.start ++ "!"
  | .noAppointments => "No appointments found."

/-- Lines 68-92 of `src/index.js`: fetch locations (passed in as the
response of `getAllLocations`), filter to the hardcoded allow-list,
fetch appointments with `limit: 1`, then either sort and print one line
per appointment or print the "No appointments found." message.  The
result is the trace of `console.log` events (an error of the fan-out
propagates). -/
def init (locations : List Location)
    (fetchSlots : Nat → Int → Except String (List Slot))
    (fmt : Int → String) (parse : String → Int) :
    Except String (List OutEvent) :=
  let locationIds := getAllLocationIds locations regionAllowList
  (getAvailableAppointments locations locationIds 1 fetchSlots fmt).map
    (fun appointments =>
      if appointments.length ≠ 0 then
        OutEvent.checking ::
          (sortByStart parse appointments).map OutEvent.appointmentLine
      else
        [OutEvent.checking, OutEvent.noAppointments])

/-- The heap fragment visible to `getAllLocationIds`: its two array
arguments. -/
structure JsHeap where
  locations : List Location
  filter : List String
deriving Repr, DecidableEq

/-- State-passing rendering of `getAllLocationIds` (`src/index.js`
lines 21-25): every operation in its body (`Array.prototype.filter`,
`Array.prototype.includes`, `Array.prototype.map`) reads its receiver
and allocates a fresh array, mutating nothing, so the heap holding the
arguments passes through unchanged. -/
def getAllLocationIdsSt (h : JsHeap) : List Int × JsHeap :=
  let filteredData :=
    h.locations.filter (fun location => h.filter.contains location.state)
  let locationIds := filteredData.map (fun location => location.id)
  (locationIds, h)

/-- C1: every id returned by `getAllLocationIds L F` is the id of a
location of `L` whose state is in `F`; conversely every location of `L`
whose state is in `F` has its id in the output; and on
`L = [{id:1,name:"Cincinnati",state:"OH"}, {id:2,name:"Louisville",state:"KY"}]`
with `F = ["OH"]` the output is `[1]`. -/
theorem getAllLocationIds_sound_complete (L : List Location) (F : List String) :
    (∀ i ∈ getAllLocationIds L F, ∃ loc ∈ L, loc.state ∈ F ∧ loc.id = i) ∧
    (∀ loc ∈ L, loc.state ∈ F → loc.id ∈ getAllLocationIds L F) ∧
    getAllLocationIds
      [{ id := 1, name := "Cincinnati", state := "OH" },
       { id := 2, name := "Louisville", state := "KY" }] ["OH"] = [1] := by
  refine ⟨?_, ?_, by decide⟩
  · intro i hi
    simp only [getAllLocationIds, List.mem_map, List.mem_filter] at hi
    obtain ⟨loc, ⟨hmem, hstate⟩, hid⟩ := hi
    exact ⟨loc, hmem, by simpa using hstate, hid⟩
  · intro loc hmem hstate
    simp only [getAllLocationIds, List.mem_map, List.mem_filter]
    exact ⟨loc, ⟨hmem, by simpa using hstate⟩, rfl⟩

/-- Witness for C1 at concrete inputs. -/
theorem getAllLocationIds_sound_complete_witness :
    (2 : Int) ∈
      getAllLocationIds [{ id := 2, name := "Louisville", state := "KY" }]
        ["KY"] :=
  (getAllLocationIds_sound_complete
      [{ id := 2, name := "Louisville", state := "KY" }] ["KY"]).2.1
    { id := 2, name := "Louisville", state := "KY" } (by decide) (by decide)

/-- C6: the output of `getAllLocationIds` is an order-preserving
subsequence of the ids of the input collection (stable filter). -/
theorem getAllLocationIds_stable (L : List Location) (F : List String) :
    (getAllLocationIds L F).Sublist (L.map Location.id) :=
  List.Sublist.map Location.id (List.filter_sublist L)

/-- C7: `getAllLocationIds` is deterministic — two calls on equal
arguments return the identical ordered list — and re-filtering the
already-filtered collection with the same allow-list changes
nothing. -/
theorem getAllLocationIds_deterministic (L L' : List Location)
    (F F' : List String) (hL : L = L') (hF : F = F') :
    getAllLocationIds L F = getAllLocationIds L' F' ∧
    getAllLocationIds (L.filter (fun loc => F.contains loc.state)) F =
      getAllLocationIds L F := by
  subst hL hF
  refine ⟨rfl, ?_⟩
  simp [getAllLocationIds, List.filter_filter]

/-- Witness for C7 at concrete inputs. -/
theorem getAllLocationIds_deterministic_witness :
    getAllLocationIds [{ id := 1, name := "Cincinnati", state := "OH" }]
        ["OH"] =
      getAllLocationIds [{ id := 1, name := "Cincinnati", state := "OH" }]
        ["OH"] ∧
    getAllLocationIds
        (List.filter (fun loc => List.contains ["OH"] loc.state)
          [{ id := 1, name := "Cincinnati", state := "OH" }]) ["OH"] =
      getAllLocationIds [{ id := 1, name := "Cincinnati", state := "OH" }]
        ["OH"] :=
  getAllLocationIds_deterministic
    [{ id := 1, name := "Cincinnati", state := "OH" }]
    [{ id := 1, name := "Cincinnati", state := "OH" }] ["OH"] ["OH"] rfl rfl

/-- C8: `getAllLocationIds` is pure — run over the heap holding its
arguments it leaves that heap unchanged, and its value is exactly the
pure function of the two arguments (no I/O appears in its type). -/
theorem getAllLocationIds_pure (h : JsHeap) :
    (getAllLocationIdsSt h).2 = h ∧
    (getAllLocationIdsSt h).1 = getAllLocationIds h.locations h.filter :=
  ⟨rfl, rfl⟩

/-- If one of the branches handed to `Promise.all` rejects, the whole
`Promise.all` rejects. -/
theorem promiseAll_error_of_mem {ε α : Type} {rs : List (Except ε α)} {e : ε}
    (h : Except.error e ∈ rs) : ∃ e', promiseAll rs = Except.error e' := by
  induction rs with
  | nil => cases h
  | cons r rs ih =>
    rcases List.mem_cons.mp h with h | h
    · exact ⟨e, by rw [← h]; rfl⟩
    · obtain ⟨e', he'⟩ := ih h
      cases r with
      | error e₀ => exact ⟨e₀, rfl⟩
      | ok a => exact ⟨e', by simp [promiseAll, he']⟩

/-- If `Promise.all` fulfills, every branch fulfilled with the
corresponding value. -/
theorem promiseAll_ok_forall₂ {ε α : Type} :
    ∀ {rs : List (Except ε α)} {as : List α},
      promiseAll rs = Except.ok as →
      List.Forall₂ (fun r a => r = Except.ok a) rs as := by
  intro rs
  induction rs with
  | nil =>
    intro as h
    simp only [promiseAll] at h
    cases h
    exact List.Forall₂.nil
  | cons r rs ih =>
    intro as h
    cases r with
    | error e => simp [promiseAll] at h
    | ok a =>
      cases hrec : promiseAll rs with
      | error e => simp [promiseAll, hrec] at h
      | ok as' =>
        simp only [promiseAll, hrec] at h
        cases h
        exact List.Forall₂.cons rfl (ih hrec)

/-- Unfolding of the fan-out on an empty id list. -/
theorem getAvailableAppointments_nil (locations : List Location) (limit : Nat)
    (fetchSlots : Nat → Int → Except String (List Slot)) (fmt : Int → String) :
    getAvailableAppointments locations [] limit fetchSlots fmt =
      Except.ok [] := rfl

/-- C4: if any single per-location request rejects, the whole
`getAvailableAppointments` call rejects — no partial aggregate of the
successful branches is returned. -/
theorem getAvailableAppointments_all_or_nothing (locations : List Location)
    (locationIds : List Int) (limit : Nat)
    (fetchSlots : Nat → Int → Except String (List Slot)) (fmt : Int → String)
    (h : ∃ locationId ∈ locationIds, ∃ e,
        fetchSlots limit locationId = Except.error e) :
    ∃ e', getAvailableAppointments locations locationIds limit fetchSlots fmt =
      Except.error e' := by
  obtain ⟨locationId, hmem, e, herr⟩ := h
  have hErrMem : Except.error e ∈ locationIds.map (fun locationId =>
      (fetchSlots limit locationId).map
        (fun data => data.map (toAppointment locations fmt))) := by
    refine List.mem_map.mpr ⟨locationId, hmem, ?_⟩
    rw [herr]
    rfl
  obtain ⟨e', he'⟩ := promiseAll_error_of_mem hErrMem
  refine ⟨e', ?_⟩
  simp only [getAvailableAppointments, Except.map] at he' ⊢
  rw [he']

/-- Witness for C4 at concrete inputs. -/
theorem getAvailableAppointments_all_or_nothing_witness :
    ∃ e', getAvailableAppointments [] [1] 1
        (fun _ _ => Except.error "network") (fun _ => "") =
      Except.error e' :=
  getAvailableAppointments_all_or_nothing [] [1] 1
    (fun _ _ => Except.error "network") (fun _ => "")
    ⟨1, by decide, "network", rfl⟩

/-- C9: with an empty id set the fan-out returns an empty appointment
list, and a run whose filtered id list is empty takes the
"No appointments found." branch of the driver. -/
theorem getAvailableAppointments_empty_ids (locations : List Location)
    (limit : Nat) (fetchSlots : Nat → Int → Except String (List Slot))
    (fmt : Int → String) (parse : String → Int)
    (hids : getAllLocationIds locations regionAllowList = []) :
    getAvailableAppointments locations [] limit fetchSlots fmt =
      Except.ok [] ∧
    init locations fetchSlots fmt parse =
      Except.ok [OutEvent.checking, OutEvent.noAppointments] := by
  refine ⟨rfl, ?_⟩
  simp [init, hids, getAvailableAppointments, promiseAll, Except.map]

/-- Witness for C9 at concrete inputs. -/
theorem getAvailableAppointments_empty_ids_witness :
    getAvailableAppointments [] [] 1 (fun _ _ => Except.ok [])
        (fun _ => "") = Except.ok [] ∧
    init [] (fun _ _ => Except.ok []) (fun _ => "") (fun _ => 0) =
      Except.ok [OutEvent.checking, OutEvent.noAppointments] :=
  getAvailableAppointments_empty_ids [] 1 (fun _ _ => Except.ok [])
    (fun _ => "") (fun _ => 0) rfl

/-- Inversion of `Except.map`: a mapped computation fulfills exactly
when the underlying one does. -/
theorem except_map_ok_inv {ε α β : Type} {f : α → β} {x : Except ε α} {b : β}
    (h : Except.map f x = Except.ok b) : ∃ a, x = Except.ok a ∧ b = f a := by
  cases x with
  | error e => simp [Except.map] at h
  | ok a =>
    refine ⟨a, rfl, ?_⟩
    simp only [Except.map] at h
    cases h
    rfl

/-- Inversion of `promiseAll` on a non-empty list of branches. -/
theorem promiseAll_cons_ok_inv {ε α : Type} {r : Except ε α}
    {rs : List (Except ε α)} {as : List α}
    (h : promiseAll (r :: rs) = Except.ok as) :
    ∃ a as', r = Except.ok a ∧ promiseAll rs = Except.ok as' ∧
      as = a :: as' := by
  cases r with
  | error e => simp [promiseAll] at h
  | ok a =>
    cases hrec : promiseAll rs with
    | error e => simp [promiseAll, hrec] at h
    | ok as' =>
      simp only [promiseAll, hrec] at h
      cases h
      exact ⟨a, as', rfl, rfl, rfl⟩

/-- Inversion of a successful fan-out: each id's fetch fulfilled with
some slot list, and the aggregate is exactly the concatenation of the
per-location appointment lists. -/
theorem getAvailableAppointments_ok_inv (locations : List Location)
    (limit : Nat) (fetchSlots : Nat → Int → Except String (List Slot))
    (fmt : Int → String) :
    ∀ {locationIds : List Int} {A : List Appointment},
      getAvailableAppointments locations locationIds limit fetchSlots fmt =
        Except.ok A →
      ∃ slotss : List (List Slot),
        List.Forall₂
          (fun locationId data =>
            fetchSlots limit locationId = Except.ok data)
          locationIds slotss ∧
        A = (slotss.map
              (fun data => data.map (toAppointment locations fmt))).flatten := by
  intro locationIds
  induction locationIds with
  | nil =>
    intro A h
    obtain ⟨chunks, hP, hA⟩ := except_map_ok_inv h
    simp only [List.map_nil, promiseAll] at hP
    cases hP
    exact ⟨[], List.Forall₂.nil, by simpa using hA⟩
  | cons locationId locationIds ih =>
    intro A h
    replace h : Except.map (fun chunks => List.flatten chunks)
        (promiseAll (List.map (fun locationId =>
          Except.map (fun data => data.map (toAppointment locations fmt))
            (fetchSlots limit locationId))
          (locationId :: locationIds))) = Except.ok A := h
    rw [List.map_cons] at h
    obtain ⟨chunks, hP, hA⟩ := except_map_ok_inv h
    obtain ⟨c, cs, hc, hcs, hchunks⟩ := promiseAll_cons_ok_inv hP
    obtain ⟨data, hdata, hcval⟩ := except_map_ok_inv hc
    have hgaa : getAvailableAppointments locations locationIds limit
        fetchSlots fmt = Except.ok cs.flatten := by
      show Except.map (fun chunks => List.flatten chunks)
          (promiseAll (List.map (fun locationId =>
            Except.map (fun data => data.map (toAppointment locations fmt))
              (fetchSlots limit locationId)) locationIds)) =
        Except.ok cs.flatten
      rw [hcs]
      rfl
    obtain ⟨slotss, hforall, hflat⟩ := ih hgaa
    refine ⟨data :: slotss, List.Forall₂.cons hdata hforall, ?_⟩
    subst hA hchunks hcval
    simp [hflat]

/-- C10: a successful `getAvailableAppointments` run returns exactly
one appointment per fetched slot — the aggregate's length is the total
number of slot records across the per-location responses. -/
theorem getAvailableAppointments_counts (locations : List Location)
    (locationIds : List Int) (limit : Nat)
    (fetchSlots : Nat → Int → Except String (List Slot))
    (fmt : Int → String) (A : List Appointment)
    (hok : getAvailableAppointments locations locationIds limit fetchSlots
      fmt = Except.ok A) :
    ∃ slotss : List (List Slot),
      List.Forall₂
        (fun locationId data => fetchSlots limit locationId = Except.ok data)
        locationIds slotss ∧
      A.length = (slotss.map List.length).sum := by
  obtain ⟨slotss, hforall, hflat⟩ :=
    getAvailableAppointments_ok_inv locations limit fetchSlots fmt hok
  refine ⟨slotss, hforall, ?_⟩
  subst hflat
  simp [List.length_flatten, List.map_map, Function.comp_def]

/-- A concrete slot used by witnesses. -/
def wSlot : Slot := { locationId := 5, startTimestamp := 0, endTimestamp := 0 }

/-- A concrete always-succeeding fetch environment used by witnesses. -/
def wFetch : Nat → Int → Except String (List Slot) :=
  fun _ _ => Except.ok [wSlot]

/-- The appointment the witness run produces (no location matches id 5,
so the name falls back to "Unknown"). -/
def wAppt : Appointment := { location := "Unknown", start := "", endTime := "" }

/-- Witness for C10 at concrete inputs. -/
theorem getAvailableAppointments_counts_witness :
    ∃ slotss : List (List Slot),
      List.Forall₂
        (fun locationId data => wFetch 1 locationId = Except.ok data)
        [(5 : Int)] slotss ∧
      [wAppt].length = (slotss.map List.length).sum :=
  getAvailableAppointments_counts [] [5] 1 wFetch (fun _ => "") [wAppt] rfl

/-- A relation holding pairwise between two lists holds, for each
member of the right list, with some member of the left list. -/
theorem forall₂_exists_of_mem_right {α β : Type} {r : α → β → Prop} :
    ∀ {l : List α} {l' : List β}, List.Forall₂ r l l' →
      ∀ b ∈ l', ∃ a ∈ l, r a b := by
  intro l l' h
  induction h with
  | nil => intro b hb; cases hb
  | @cons a b l l' hab _ ih =>
    intro b' hb'
    rcases List.mem_cons.mp hb' with rfl | hb'
    · exact ⟨a, List.mem_cons_self a l, hab⟩
    · obtain ⟨a', ha', hr⟩ := ih b' hb'
      exact ⟨a', List.mem_cons_of_mem a ha', hr⟩

/-- The `location` field of a built appointment is the name of some
matching location, or "Unknown" when no location matches. -/
theorem toAppointment_location_cases (locations : List Location)
    (fmt : Int → String) (s : Slot) :
    (∃ loc ∈ locations, loc.id = s.locationId ∧
        (toAppointment locations fmt s).location = loc.name) ∨
    ((toAppointment locations fmt s).location = "Unknown" ∧
      ∀ loc ∈ locations, loc.id ≠ s.locationId) := by
  unfold toAppointment
  cases hfind : locations.find? (fun loc => loc.id == s.locationId) with
  | none =>
    right
    refine ⟨rfl, fun loc hmem => ?_⟩
    have := List.find?_eq_none.mp hfind loc hmem
    simpa using this
  | some loc =>
    left
    refine ⟨loc, List.mem_of_find?_eq_some hfind, ?_, rfl⟩
    have := List.find?_some hfind
    simpa using this

/-- When no location is itself named "Unknown", the "Unknown" sentinel
appears exactly when the join fails. -/
theorem toAppointment_unknown_iff (locations : List Location)
    (fmt : Int → String) (s : Slot)
    (hname : ∀ loc ∈ locations, loc.name ≠ "Unknown") :
    (toAppointment locations fmt s).location = "Unknown" ↔
      ∀ loc ∈ locations, loc.id ≠ s.locationId := by
  rcases toAppointment_location_cases locations fmt s with
    ⟨loc, hmem, hid, hloc⟩ | ⟨hunk, hnone⟩
  · constructor
    · intro h
      exact (hname loc hmem (hloc.symm.trans h)).elim
    · intro h
      exact (h loc hmem hid).elim
  · exact ⟨fun _ => hnone, fun _ => hunk⟩

/-- Provenance of every appointment in a successful aggregate: it is
built by `toAppointment` from a slot of one of the fetched
responses. -/
theorem mem_getAvailableAppointments (locations : List Location)
    (locationIds : List Int) (limit : Nat)
    (fetchSlots : Nat → Int → Except String (List Slot))
    (fmt : Int → String) (A : List Appointment)
    (hok : getAvailableAppointments locations locationIds limit fetchSlots
      fmt = Except.ok A) :
    ∀ a ∈ A, ∃ locationId ∈ locationIds, ∃ data,
      fetchSlots limit locationId = Except.ok data ∧
      ∃ s ∈ data, a = toAppointment locations fmt s := by
  intro a ha
  obtain ⟨slotss, hforall, hflat⟩ :=
    getAvailableAppointments_ok_inv locations limit fetchSlots fmt hok
  subst hflat
  rw [List.mem_flatten] at ha
  obtain ⟨chunk, hchunk, hachunk⟩ := ha
  rw [List.mem_map] at hchunk
  obtain ⟨data, hdata, rfl⟩ := hchunk
  obtain ⟨locationId, hid, hfetch⟩ :=
    forall₂_exists_of_mem_right hforall data hdata
  rw [List.mem_map] at hachunk
  obtain ⟨s, hs, rfl⟩ := hachunk
  exact ⟨locationId, hid, data, hfetch, s, hs, rfl⟩

/-- A location that is literally named "Unknown". -/
def cexLocation : Location := { id := 1, name := "Unknown", state := "OH" }

/-- A slot whose id matches `cexLocation`. -/
def cexSlot : Slot := { locationId := 1, startTimestamp := 0, endTimestamp := 0 }

/-- A fetch environment returning `cexSlot`. -/
def cexFetch : Nat → Int → Except String (List Slot) :=
  fun _ _ => Except.ok [cexSlot]

/-- The appointment the counterexample run produces. -/
def cexAppt : Appointment := { location := "Unknown", start := "", endTime := "" }

/-- C2 counterexample: with a location literally named "Unknown" whose
id matches the slot, the produced appointment's `location` field is
"Unknown" even though a matching location exists — refuting the claimed
"only if no match" direction of the iff. -/
theorem getAvailableAppointments_unknown_counterexample :
    getAvailableAppointments [cexLocation] [1] 1 cexFetch (fun _ => "") =
      Except.ok [cexAppt] ∧
    cexAppt.location = "Unknown" ∧
    cexLocation ∈ [cexLocation] ∧ cexLocation.id = cexSlot.locationId :=
  ⟨rfl, rfl, List.mem_singleton.mpr rfl, rfl⟩

/-- C2 (amended): every appointment of a successful aggregate comes
from a fetched slot; its `location` field is the name of a matching
location or "Unknown", it is "Unknown" whenever no location matches,
and — provided no location is itself named "Unknown" — it is "Unknown"
exactly when no location matches. -/
theorem getAvailableAppointments_location_field (locations : List Location)
    (locationIds : List Int) (limit : Nat)
    (fetchSlots : Nat → Int → Except String (List Slot))
    (fmt : Int → String) (A : List Appointment)
    (hok : getAvailableAppointments locations locationIds limit fetchSlots
      fmt = Except.ok A) :
    ∀ a ∈ A, ∃ locationId ∈ locationIds, ∃ data,
      fetchSlots limit locationId = Except.ok data ∧
      ∃ s ∈ data, a = toAppointment locations fmt s ∧
        ((∃ loc ∈ locations, loc.id = s.locationId ∧
            a.location = loc.name) ∨
          (a.location = "Unknown" ∧
            ∀ loc ∈ locations, loc.id ≠ s.locationId)) ∧
        ((∀ loc ∈ locations, loc.name ≠ "Unknown") →
          (a.location = "Unknown" ↔
            ∀ loc ∈ locations, loc.id ≠ s.locationId)) := by
  intro a ha
  obtain ⟨locationId, hid, data, hfetch, s, hs, rfl⟩ :=
    mem_getAvailableAppointments locations locationIds limit fetchSlots fmt A
      hok a ha
  exact ⟨locationId, hid, data, hfetch, s, hs, rfl,
    toAppointment_location_cases locations fmt s,
    fun hname => toAppointment_unknown_iff locations fmt s hname⟩

/-- A concrete location matching `wSlot` used by witnesses. -/
def wLocation : Location := { id := 5, name := "Cincinnati", state := "OH" }

/-- The appointment the joined witness run produces. -/
def wApptC : Appointment :=
  { location := "Cincinnati", start := "", endTime := "" }

/-- Witness for the amended C2 at concrete inputs. -/
theorem getAvailableAppointments_location_field_witness :
    ∃ locationId ∈ [(5 : Int)], ∃ data,
      wFetch 1 locationId = Except.ok data ∧
      ∃ s ∈ data, wApptC = toAppointment [wLocation] (fun _ => "") s ∧
        ((∃ loc ∈ [wLocation], loc.id = s.locationId ∧
            wApptC.location = loc.name) ∨
          (wApptC.location = "Unknown" ∧
            ∀ loc ∈ [wLocation], loc.id ≠ s.locationId)) ∧
        ((∀ loc ∈ [wLocation], loc.name ≠ "Unknown") →
          (wApptC.location = "Unknown" ↔
            ∀ loc ∈ [wLocation], loc.id ≠ s.locationId)) :=
  getAvailableAppointments_location_field [wLocation] [5] 1 wFetch
    (fun _ => "") [wApptC] rfl wApptC (List.mem_singleton.mpr rfl)

/-- The driver's trace is determined by the aggregate the fan-out
returns. -/
theorem init_eq_of_ok (locations : List Location)
    (fetchSlots : Nat → Int → Except String (List Slot))
    (fmt : Int → String) (parse : String → Int) (A : List Appointment)
    (hok : getAvailableAppointments locations
      (getAllLocationIds locations regionAllowList) 1 fetchSlots fmt =
      Except.ok A) :
    init locations fetchSlots fmt parse = Except.ok
      (if A.length ≠ 0 then
        OutEvent.checking ::
          (sortByStart parse A).map OutEvent.appointmentLine
      else [OutEvent.checking, OutEvent.noAppointments]) := by
  show Except.map _ (getAvailableAppointments locations
      (getAllLocationIds locations regionAllowList) 1 fetchSlots fmt) = _
  rw [hok]
  rfl

/-- The sort of `init` produces a list that is pairwise non-decreasing
in the parsed start time. -/
theorem sortByStart_sorted (parse : String → Int) (l : List Appointment) :
    (sortByStart parse l).Pairwise
      (fun x y => parse x.start ≤ parse y.start) := by
  unfold sortByStart
  refine List.Pairwise.imp ?_ (List.sorted_mergeSort ?_ ?_ l)
  · exact fun hab => of_decide_eq_true hab
  · exact fun a b c hab hbc => decide_eq_true
      (le_trans (of_decide_eq_true hab) (of_decide_eq_true hbc))
  · intro a b
    rcases Int.le_total (parse a.start) (parse b.start) with h | h <;> simp [h]

/-- C3: on every run whose aggregate is non-empty, the sequence of
printed appointments is non-decreasing in parsed start time. -/
theorem init_sorted_output (locations : List Location)
    (fetchSlots : Nat → Int → Except String (List Slot))
    (fmt : Int → String) (parse : String → Int) (A : List Appointment)
    (hok : getAvailableAppointments locations
      (getAllLocationIds locations regionAllowList) 1 fetchSlots fmt =
      Except.ok A)
    (hne : A ≠ []) :
    init locations fetchSlots fmt parse = Except.ok
      (OutEvent.checking ::
        (sortByStart parse A).map OutEvent.appointmentLine) ∧
    (sortByStart parse A).Pairwise
      (fun x y => parse x.start ≤ parse y.start) := by
  refine ⟨?_, sortByStart_sorted parse A⟩
  rw [init_eq_of_ok locations fetchSlots fmt parse A hok]
  simp [hne]

/-- Witness for C3 at concrete inputs. -/
theorem init_sorted_output_witness :
    init [wLocation] wFetch (fun _ => "") (fun _ => 0) = Except.ok
      (OutEvent.checking ::
        (sortByStart (fun _ => 0) [wApptC]).map OutEvent.appointmentLine) ∧
    (sortByStart (fun _ => 0) [wApptC]).Pairwise
      (fun x y =>
        (fun _ => (0 : Int)) x.start ≤ (fun _ => (0 : Int)) y.start) :=
  init_sorted_output [wLocation] wFetch (fun _ => "") (fun _ => 0) [wApptC]
    rfl (by simp)

/-- C5: an empty aggregate prints exactly the "No appointments found."
message and no per-appointment line; a non-empty aggregate prints one
line per appointment and never the "No appointments found."
message. -/
theorem init_branches (locations : List Location)
    (fetchSlots : Nat → Int → Except String (List Slot))
    (fmt : Int → String) (parse : String → Int) (A : List Appointment)
    (hok : getAvailableAppointments locations
      (getAllLocationIds locations regionAllowList) 1 fetchSlots fmt =
      Except.ok A) :
    (A = [] → init locations fetchSlots fmt parse =
      Except.ok [OutEvent.checking, OutEvent.noAppointments]) ∧
    (A ≠ [] →
      init locations fetchSlots fmt parse = Except.ok
        (OutEvent.checking ::
          (sortByStart parse A).map OutEvent.appointmentLine) ∧
      ((sortByStart parse A).map OutEvent.appointmentLine).length =
        A.length ∧
      OutEvent.noAppointments ∉
        OutEvent.checking ::
          (sortByStart parse A).map OutEvent.appointmentLine) := by
  constructor
  · intro h
    subst h
    rw [init_eq_of_ok locations fetchSlots fmt parse [] hok]
    simp
  · intro hne
    refine ⟨?_, ?_, ?_⟩
    · rw [init_eq_of_ok locations fetchSlots fmt parse A hok]
      simp [hne]
    · simp [sortByStart]
    · simp

/-- Witness for C5 at concrete inputs (the empty-aggregate branch). -/
theorem init_branches_witness :
    init [] wFetch (fun _ => "") (fun _ => 0) =
      Except.ok [OutEvent.checking, OutEvent.noAppointments] :=
  (init_branches [] wFetch (fun _ => "") (fun _ => 0) [] rfl).1 rfl

end TipChecker
